import Mathlib

/-!
Shallow embedding of the PII detection core (`src/pdf-service/pii_detector.py`)
and the redaction-area validation/application logic (`src/pdf-service/app.py`)
of the legal-document-processor service, with proofs of the specification
claims about them.

Modelling conventions:
* Python numbers are modelled as rationals (`ℚ`): the code only adds,
  subtracts, multiplies, divides and compares, and every constant is decimal.
* Python strings are Lean `String`s; the Python string operations used by the
  code (`split`, `strip`, `lower`, `title`, `in`, `join`, `replace`) are
  implemented structurally over `List Char` so every definition evaluates.
* `re.finditer` (the Python regex library) and `uuid4` (the random identifier
  generator) are external collaborators; `detect_in_text` takes them as
  explicit parameters: `finditer pattern text` returns the match list
  (matched substring plus start/end character offsets) and `uuid n` is the
  8-character hex suffix produced by the `n`-th `uuid4()` call of the run.
* Exceptions are modelled with `Option`/`Except` where the code can raise.
-/

/-- Whether `p` is a prefix of `l` (Boolean, structural). -/
def isPrefixL : List Char → List Char → Bool
  | [], _ => true
  | _ :: _, [] => false
  | a :: as, b :: bs => a == b && isPrefixL as bs

/-- Python `sub in s` on character lists: `sub` occurs contiguously in `l`. -/
def containsL (sub : List Char) : List Char → Bool
  | [] => isPrefixL sub []
  | c :: cs => isPrefixL sub (c :: cs) || containsL sub cs

/-- Worker for `pySplit`, with explicit fuel so recursion is structural.
The fuel is the length of the scanned list; it can run out only when the
separator is empty, which no caller does. -/
def splitOnFuel (sep : List Char) : Nat → List Char → List Char → List (List Char)
  | 0, rest, cur => [cur.reverse ++ rest]
  | _ + 1, [], cur => [cur.reverse]
  | fuel + 1, c :: cs, cur =>
    if isPrefixL sep (c :: cs) then
      cur.reverse :: splitOnFuel sep fuel (List.drop sep.length (c :: cs)) []
    else
      splitOnFuel sep fuel cs (c :: cur)

/-- Python `s.split(sep)` for a non-empty separator: split at each
left-to-right non-overlapping occurrence, keeping empty pieces. -/
def pySplit (l sep : List Char) : List (List Char) := splitOnFuel sep l.length l []

/-- Worker for `pySplitWs`. -/
def splitWsAux : List Char → List Char → List (List Char)
  | [], cur => if cur.isEmpty then [] else [cur.reverse]
  | c :: cs, cur =>
    if c.isWhitespace then
      if cur.isEmpty then splitWsAux cs [] else cur.reverse :: splitWsAux cs []
    else splitWsAux cs (c :: cur)

/-- Python `s.split()` with no argument: split on runs of whitespace,
discarding empty pieces. -/
def pySplitWs (l : List Char) : List (List Char) := splitWsAux l []

/-- Python `s.strip()`: drop leading and trailing whitespace. -/
def stripL (l : List Char) : List Char :=
  ((l.dropWhile Char.isWhitespace).reverse.dropWhile Char.isWhitespace).reverse

/-- Python `s.lower()` (ASCII model). -/
def listLower (l : List Char) : List Char := l.map Char.toLower

/-- Worker for `titleCase`; the flag records whether the previous character
was a letter (Python: cased). -/
def titleCaseAux : List Char → Bool → List Char
  | [], _ => []
  | c :: cs, prevCased =>
    if c.isAlpha then
      (if prevCased then c.toLower else c.toUpper) :: titleCaseAux cs true
    else c :: titleCaseAux cs false

/-- Python `s.title()` (ASCII model): first letter of each word uppercased,
remaining letters lowercased. -/
def titleCase (l : List Char) : List Char := titleCaseAux l false

/-- Python `" ".join(words)`. -/
def joinSpace : List (List Char) → List Char
  | [] => []
  | [w] => w
  | w :: ws => w ++ ' ' :: joinSpace ws

/-- Digit values of the digit characters of a string, in order. Models
`[int(d) for d in card_number if d.isdigit()]` (ASCII digits). -/
def pyDigits (s : String) : List Nat :=
  (s.data.filter Char.isDigit).map (fun c => c.toNat - 48)

/-- Luhn adjustment of the digit at (0-based, right-to-left) position `i`:
positions 1, 3, 5, … are doubled, and 9 is subtracted when the doubled
value exceeds 9. -/
def luhnAdjust (i d : Nat) : Nat :=
  if i % 2 == 1 then (if d * 2 > 9 then d * 2 - 9 else d * 2) else d

/-- Checksum loop of `luhn_check`: `for i, digit in enumerate(reversed(digits))`,
written as a recursion carrying the enumeration index. -/
def luhnSum (i : Nat) : List Nat → Nat
  | [] => 0
  | d :: ds => luhnAdjust i d + luhnSum (i + 1) ds

/-- `PIIDetector.luhn_check` (pii_detector.py, lines 28–47): extract the digit
characters, reject when fewer than 13 or more than 19 remain, otherwise check
the Luhn mod-10 checksum over the reversed digit sequence. The Python
`try/except` can never fire after the `isdigit` filter; the Lean function is
total, so no exception propagates. -/
def luhn_check (card_number : String) : Bool :=
  let digits := pyDigits card_number
  if digits.length < 13 || digits.length > 19 then false
  else luhnSum 0 digits.reverse % 10 == 0

/-- The fixed free-mail provider list tested by the EMAIL confidence branch. -/
def FREE_MAIL_DOMAINS : List String :=
  ["gmail.com", "yahoo.com", "outlook.com", "hotmail.com"]

/-- `PIIDetector.calculate_confidence` (pii_detector.py, lines 49–78).
For EMAIL the code tests `any(domain in text.lower() for domain in [...])`,
a substring test on the whole lowercased text; for CREDIT_CARD it strips
dashes and whitespace (`re.sub(r'[-\s]', '', text)`) and defers to
`luhn_check`. The decimal constants 0.95, 0.90, … are written `mkRat 95 100`,
`mkRat 90 100`, … so that the function evaluates inside the kernel. -/
def calculate_confidence (category : String) (text : String) : ℚ :=
  if category == "SSN" then mkRat 95 100
  else if category == "EMAIL" then
    if FREE_MAIL_DOMAINS.any (fun domain => containsL domain.data (listLower text.data)) then
      mkRat 95 100
    else mkRat 90 100
  else if category == "CREDIT_CARD" then
    let card_num := String.mk (text.data.filter (fun c => !(c == '-' || c.isWhitespace)))
    if luhn_check card_num then mkRat 95 100 else mkRat 70 100
  else if category == "PHONE" then mkRat 88 100
  else if category == "DATE_OF_BIRTH" then mkRat 85 100
  else if category == "ADDRESS" then mkRat 80 100
  else if category == "ZIP_CODE" then mkRat 82 100
  else if category == "NAME" then mkRat 75 100
  else mkRat 80 100

/-- `PIIDetector.PATTERNS` (pii_detector.py, lines 15–23): category names
paired with their regex source strings (the regex engine itself is the
external `re` library, passed to `detect_in_text` as `finditer`). -/
def PATTERNS : List (String × String) :=
  [("SSN", "\\b\\d\x7b3\x7d-\\d\x7b2\x7d-\\d\x7b4\x7d\\b"),
   ("EMAIL", "\\b[A-Za-z0-9._%+-]+@[A-Za-z0-9.-]+\\.[A-Z|a-z]\x7b2,\x7d\\b"),
   ("PHONE", "\\b(?:\\+?1[-.]?)?\\(?([0-9]\x7b3\x7d)\\)?[-.]?([0-9]\x7b3\x7d)[-.]?([0-9]\x7b4\x7d)\\b"),
   ("CREDIT_CARD", "\\b(?:\\d\x7b4\x7d[-\\s]?)\x7b3\x7d\\d\x7b4\x7d\\b"),
   ("DATE_OF_BIRTH", "\\b(?:0[1-9]|1[0-2])[/-](?:0[1-9]|[12][0-9]|3[01])[/-](?:19|20)\\d\x7b2\x7d\\b"),
   ("ZIP_CODE", "\\b\\d\x7b5\x7d(?:-\\d\x7b4\x7d)?\\b"),
   ("ADDRESS", "\\b\\d+\\s+[A-Za-z\\s]+(?:Street|St|Avenue|Ave|Road|Rd|Boulevard|Blvd|Lane|Ln|Drive|Dr|Court|Ct|Circle|Cir)\\b")]

/-- `PIIDetector.NAME_INDICATORS` (pii_detector.py, line 26). -/
def NAME_INDICATORS : List String := ["Mr.", "Mrs.", "Ms.", "Dr.", "Prof.", "Miss"]

/-- A regex match as yielded by `re.finditer`: the matched substring
(`match.group()`) and its character offsets (`match.start()`, `match.end()`). -/
structure ReMatch where
  group : String
  start : Nat
  stop : Nat
deriving DecidableEq

/-- A bounding box `[x1, y1, x2, y2]` (the code's field naming). -/
structure BBox where
  x1 : ℚ
  y1 : ℚ
  x2 : ℚ
  y2 : ℚ
deriving DecidableEq

/-- One finding dict as appended by `detect_in_text`. -/
structure Finding where
  id : String
  category : String
  name : String
  text : String
  confidence : ℚ
  page : Int
  bbox : BBox
deriving DecidableEq

/-- Lines 115–132 of pii_detector.py: the estimated bounding box of a match
at character offsets `match_start`/`match_end` within a span of
`text_length` characters; when the span text is empty the span box is
returned unchanged. -/
def matchBbox (bbox : BBox) (text_length match_start match_end : Nat) : BBox :=
  if text_length > 0 then
    let width := bbox.x2 - bbox.x1
    { x1 := bbox.x1 + width * ((match_start : ℚ) / (text_length : ℚ)),
      y1 := bbox.y1,
      x2 := bbox.x1 + width * ((match_end : ℚ) / (text_length : ℚ)),
      y2 := bbox.y2 }
  else bbox

/-- The finding identifier `f"{category}_{page_num}_{uuid4().hex[:8]}"`;
`suffix` is the hex suffix delivered by the uuid supply. -/
def mkId (category : String) (page_num : Int) (suffix : String) : String :=
  category ++ "_" ++ toString page_num ++ "_" ++ suffix

/-- The `name` field: `category.replace("_", " ").title()`. -/
def displayNameOf (category : String) : String :=
  String.mk (titleCase (category.data.map (fun c => if c == '_' then ' ' else c)))

/-- Lines 111–143 of pii_detector.py: the inner `for match in matches` loop
for one category, appending to the accumulated findings list. The uuid
supply is indexed by the number of findings accumulated so far, which equals
the number of `uuid4()` calls made so far in the run. -/
def matchLoop (uuid : Nat → String) (text : String) (bbox : BBox) (page_num : Int)
    (confidence_threshold : ℚ) (category : String) :
    List ReMatch → List Finding → List Finding
  | [], findings => findings
  | m :: ms, findings =>
    let confidence := calculate_confidence category m.group
    if confidence_threshold ≤ confidence then
      matchLoop uuid text bbox page_num confidence_threshold category ms
        (findings ++ [{ id := mkId category page_num (uuid findings.length),
                        category := category,
                        name := displayNameOf category,
                        text := m.group,
                        confidence := confidence,
                        page := page_num,
                        bbox := matchBbox bbox text.data.length m.start m.stop }])
    else matchLoop uuid text bbox page_num confidence_threshold category ms findings

/-- Lines 104–143 of pii_detector.py: the outer `for category in categories`
loop; categories that are not keys of `PATTERNS` are skipped (`continue`). -/
def categoryLoop (finditer : String → String → List ReMatch) (uuid : Nat → String)
    (text : String) (bbox : BBox) (page_num : Int) (confidence_threshold : ℚ) :
    List String → List Finding → List Finding
  | [], findings => findings
  | category :: rest, findings =>
    match List.lookup category PATTERNS with
    | none => categoryLoop finditer uuid text bbox page_num confidence_threshold rest findings
    | some pattern =>
      categoryLoop finditer uuid text bbox page_num confidence_threshold rest
        (matchLoop uuid text bbox page_num confidence_threshold category
          (finditer pattern text) findings)

/-- Lines 148–157 of pii_detector.py for one indicator: if the indicator
occurs in the text, split on it, strip the second piece, take up to its
first three whitespace-delimited words; when at least two words remain and
every (non-empty) one starts with an uppercase letter, the candidate name is
their space-join. -/
def nameCandidate (text indicator : String) : Option String :=
  if containsL indicator.data text.data then
    let parts := pySplit text.data indicator.data
    if parts.length > 1 then
      let words_after := (pySplitWs (stripL (parts.getD 1 []))).take 3
      if words_after.length ≥ 2 then
        if words_after.all (fun word => word.isEmpty || (word.headD ' ').isUpper) then
          some (String.mk (joinSpace words_after))
        else none
      else none
    else none
  else none

/-- Lines 146–170 of pii_detector.py: the `for indicator in NAME_INDICATORS`
loop, appending one finding per indicator whose candidate passes and whose
confidence clears the threshold; the finding keeps the whole span `bbox`. -/
def nameLoop (uuid : Nat → String) (text : String) (bbox : BBox) (page_num : Int)
    (confidence_threshold : ℚ) : List String → List Finding → List Finding
  | [], findings => findings
  | indicator :: rest, findings =>
    match nameCandidate text indicator with
    | none => nameLoop uuid text bbox page_num confidence_threshold rest findings
    | some name_text =>
      let confidence := calculate_confidence "NAME" name_text
      if confidence_threshold ≤ confidence then
        nameLoop uuid text bbox page_num confidence_threshold rest
          (findings ++ [{ id := mkId "NAME" page_num (uuid findings.length),
                          category := "NAME",
                          name := "Name",
                          text := indicator ++ " " ++ name_text,
                          confidence := confidence,
                          page := page_num,
                          bbox := bbox }])
      else nameLoop uuid text bbox page_num confidence_threshold rest findings

/-- `PIIDetector.detect_in_text` (pii_detector.py, lines 80–172): the pattern
categories are scanned first, then the NAME heuristic when `"NAME"` is among
the requested categories. -/
def detect_in_text (finditer : String → String → List ReMatch) (uuid : Nat → String)
    (text : String) (bbox : BBox) (page_num : Int) (categories : List String)
    (confidence_threshold : ℚ) : List Finding :=
  let findings :=
    categoryLoop finditer uuid text bbox page_num confidence_threshold categories []
  if "NAME" ∈ categories then
    nameLoop uuid text bbox page_num confidence_threshold NAME_INDICATORS findings
  else findings

/-- A value of a caller-supplied redaction-area dict, as seen through
`float(area.get(key, default))`, numeric comparisons, and document
indexing: `missing` — the key is absent (defaults apply); `intNum n` — a
JSON integer (a Python `int`); `floatNum q` — a JSON non-integer-typed
number (a Python `float`); `bad` — a value on which `float()` or a numeric
comparison raises (`ValueError`/`TypeError`). The int/float distinction
matters only for the `page` field: the document accepts only Python `int`
page indices. -/
inductive PyVal where
  | missing
  | intNum (n : ℤ)
  | floatNum (q : ℚ)
  | bad
deriving DecidableEq

/-- A candidate redaction area dict `{page, x, y, width, height}`. -/
structure AreaDict where
  page : PyVal
  x : PyVal
  y : PyVal
  width : PyVal
  height : PyVal
deriving DecidableEq

/-- `float(area.get(key, default))`, and the direct numeric use of
`area.get("page", 1)`: a missing key yields the default, a number its value,
and a bad value raises — modelled as `none`, which the `try/except` of
`validate_redaction_area` turns into `False`. -/
def PyVal.asNumber : PyVal → ℚ → Option ℚ
  | .missing, d => some d
  | .intNum n, _ => some (n : ℚ)
  | .floatNum q, _ => some q
  | .bad, _ => none

/-- `validate_redaction_area` (app.py, lines 267–290): page number within
`[1, page_count]`, non-negative `x`/`y`, positive `width`/`height`, and the
10,000 anti-abuse ceiling on `width`/`height`; any parse failure is caught
and yields `False`. -/
def validate_redaction_area (area : AreaDict) (page_count : ℕ) : Bool :=
  match area.page.asNumber 1, area.x.asNumber 0, area.y.asNumber 0,
        area.width.asNumber 0, area.height.asNumber 0 with
  | some page, some x, some y, some width, some height =>
    if page < 1 ∨ page > (page_count : ℚ) then false
    else if x < 0 ∨ y < 0 ∨ width ≤ 0 ∨ height ≤ 0 then false
    else if width > 10000 ∨ height > 10000 then false
    else true
  | _, _, _, _, _ => false

/-- The page geometry `page.rect` of the underlying document. -/
structure PageRect where
  width : ℚ
  height : ℚ
deriving DecidableEq

/-- A `fitz.Rect(x0, y0, x1, y1)`. -/
structure Rect where
  x0 : ℚ
  y0 : ℚ
  x1 : ℚ
  y1 : ℚ
deriving DecidableEq

/-- `float(item[key])` in the rectangle construction (app.py, lines 392–397):
unlike validation's `area.get(key, default)`, a missing key raises `KeyError`
— modelled as `none`, an uncaught exception. -/
def PyVal.item : PyVal → Option ℚ
  | .intNum n => some (n : ℚ)
  | .floatNum q => some q
  | _ => none

/-- The page index `item.get("page", 1) - 1` as accepted by
`doc[page_number]` (app.py, lines 383–386): PyMuPDF document indexing
accepts only Python `int` indices, so a float page — even an
integral-valued one such as 2.0 — raises `IndexError`; a missing page key
defaults to the int 1, hence index 0. (A `bad` page never reaches this
point, validation having already rejected the area.) -/
def pageIndexOf : PyVal → Option ℤ
  | .missing => some 0
  | .intNum n => some (n - 1)
  | .floatNum _ => none
  | .bad => none

/-- The page-bounds test of app.py line 403, whose only effect is a log
warning. -/
def rectOutOfBounds (rect : Rect) (page_rect : PageRect) : Bool :=
  decide (rect.x0 < 0 ∨ rect.y0 < 0 ∨ rect.x1 > page_rect.width ∨ rect.y1 > page_rect.height)

/-- Outcome of the `redact_pdf` loop body for one area. -/
inductive StepOutcome where
  | skipped
  | applied (rect : Rect) (warned : Bool)
  | raised (err : String)
deriving DecidableEq

/-- Outcome of the whole `redact_pdf` area loop. -/
inductive LoopOutcome where
  | done (rects : List (Rect × Bool)) (applied : ℕ)
  | raised (err : String)
deriving DecidableEq

/-- Lines 375–407 of `redact_pdf`, the loop body for one area:
`skipped` — the area fails validation (`continue`); `applied rect warned` —
a redaction annotation for `rect` is added to the page and counted, `warned`
recording whether the beyond-page-bounds warning was logged; `raised _` —
an uncaught exception aborting the whole request: the `IndexError` of
`doc[page_number]` on a non-int page, or the `KeyError` of
`float(item["x"])` / `float(item["y"])` on a missing key. The page lookup
(line 386) happens before the rectangle construction (lines 392–397), as in
the code; `getPageRect idx` models `doc[idx].rect`. -/
def redactStep (getPageRect : ℤ → PageRect) (page_count : ℕ) (area : AreaDict) :
    StepOutcome :=
  if validate_redaction_area area page_count then
    match pageIndexOf area.page with
    | none => .raised "IndexError"
    | some idx =>
      match area.x.item, area.y.item, area.width.item, area.height.item with
      | some x, some y, some width, some height =>
        let rect : Rect := ⟨x, y, x + width, y + height⟩
        .applied rect (rectOutOfBounds rect (getPageRect idx))
      | _, _, _, _ => .raised "KeyError"
  else .skipped

/-- The whole `for item in areas_list` loop of `redact_pdf`: the annotation
rectangles added (in order) with their warning flags, and the final
`redactions_applied` count; an uncaught exception aborts the request. -/
def redactLoop (getPageRect : ℤ → PageRect) (page_count : ℕ) :
    List AreaDict → LoopOutcome
  | [] => .done [] 0
  | area :: rest =>
    match redactStep getPageRect page_count area with
    | .skipped => redactLoop getPageRect page_count rest
    | .raised e => .raised e
    | .applied rect warned =>
      match redactLoop getPageRect page_count rest with
      | .raised e => .raised e
      | .done rects n => .done ((rect, warned) :: rects) (n + 1)

/-- Claim-side definition for C3, following the spec's wording: the domain
of an email address, i.e. everything after its last `@`. -/
def claimEmailDomain (s : String) : String :=
  String.mk ((pySplit s.data ['@']).getLastD s.data)

/-- The identifier-free content of a finding: everything except `id`. -/
def stripId (f : Finding) : String × String × String × ℚ × Int × BBox :=
  (f.category, f.name, f.text, f.confidence, f.page, f.bbox)

/-- Auxiliary: the checksum loop as a positional sum over the list. -/
theorem luhnSum_eq_sum (l : List ℕ) : ∀ k : ℕ,
    luhnSum k l = ∑ i in Finset.range l.length, luhnAdjust (k + i) (l.getD i 0) := by
  induction l with
  | nil => intro k; simp [luhnSum]
  | cons d ds ih =>
    intro k
    rw [List.length_cons, Finset.sum_range_succ']
    simp only [List.getD_cons_succ, List.getD_cons_zero, Nat.add_zero]
    rw [show luhnSum k (d :: ds) = luhnAdjust k d + luhnSum (k + 1) ds from rfl, ih (k + 1)]
    rw [Nat.add_comm (luhnAdjust k d)]
    congr 1
    refine Finset.sum_congr rfl fun i _ => ?_
    congr 1
    omega

/-- Auxiliary: the adjustment with a propositional position test. -/
theorem luhnAdjust_eq (i d : ℕ) :
    luhnAdjust i d = if i % 2 = 1 then (if d * 2 > 9 then d * 2 - 9 else d * 2) else d := by
  simp [luhnAdjust]

/-- C2: `luhn_check` keeps only the digit characters of its input (filtering
the input down to its digits leaves the result unchanged); it returns
`false` when fewer than 13 or more than 19 digits remain, and otherwise
returns `true` exactly when the sum over right-to-left positions — digits at
odd positions doubled, with 9 subtracted when the doubled value exceeds 9,
digits at even positions untouched — is divisible by 10. In particular
"4532015112830366" passes and "4532015112830367" fails. The function is
total, so no exception propagates. -/
theorem luhn_check_spec :
    (∀ s : String,
      luhn_check s = true ↔
        13 ≤ (pyDigits s).length ∧ (pyDigits s).length ≤ 19 ∧
        (∑ i in Finset.range (pyDigits s).length,
          (if i % 2 = 1 then
            (if ((pyDigits s).reverse.getD i 0) * 2 > 9 then
              ((pyDigits s).reverse.getD i 0) * 2 - 9
            else ((pyDigits s).reverse.getD i 0) * 2)
          else (pyDigits s).reverse.getD i 0)) % 10 = 0) ∧
    (∀ s : String, luhn_check (String.mk (s.data.filter Char.isDigit)) = luhn_check s) ∧
    luhn_check "4532015112830366" = true ∧
    luhn_check "4532015112830367" = false := by
  refine ⟨?_, ?_, by decide, by decide⟩
  · intro s
    simp only [luhn_check]
    split_ifs with h
    · simp only [Bool.false_eq_true, false_iff]
      rintro ⟨h13, h19, -⟩
      simp only [Bool.or_eq_true, decide_eq_true_eq] at h
      omega
    · simp only [Bool.or_eq_true, decide_eq_true_eq, not_or, not_lt] at h
      rw [beq_iff_eq, luhnSum_eq_sum]
      simp only [List.length_reverse, Nat.zero_add, luhnAdjust_eq]
      constructor
      · intro hsum
        exact ⟨by omega, by omega, hsum⟩
      · rintro ⟨-, -, hsum⟩
        exact hsum
  · intro s
    have hdig : pyDigits (String.mk (s.data.filter Char.isDigit)) = pyDigits s := by
      simp [pyDigits, List.filter_filter]
    simp only [luhn_check, hdig]

/-- C3 counterexample: for the EMAIL match "user@gmail.com.evil.xyz" the
domain (the part after the last `@`) is "gmail.com.evil.xyz", which is not
on the free-mail provider list, yet `calculate_confidence` returns 0.95 —
the code tests substring containment anywhere in the lowercased text, not
the domain. -/
theorem calculate_confidence_email_domain_counterexample :
    claimEmailDomain "user@gmail.com.evil.xyz" = "gmail.com.evil.xyz" ∧
    FREE_MAIL_DOMAINS.contains "gmail.com.evil.xyz" = false ∧
    ¬ (calculate_confidence "EMAIL" "user@gmail.com.evil.xyz" =
        if FREE_MAIL_DOMAINS.contains (claimEmailDomain "user@gmail.com.evil.xyz") then
          mkRat 95 100
        else mkRat 90 100) := by decide

/-- C3 amended: for category EMAIL, `calculate_confidence` returns either
0.95 or 0.90, and it returns 0.95 exactly when one of the four free-mail
provider strings occurs as a substring of the lowercased matched text
(anywhere, not only as its domain). -/
theorem calculate_confidence_email_substring (text : String) :
    (calculate_confidence "EMAIL" text = mkRat 95 100 ∨
     calculate_confidence "EMAIL" text = mkRat 90 100) ∧
    (calculate_confidence "EMAIL" text = mkRat 95 100 ↔
      ∃ domain ∈ FREE_MAIL_DOMAINS, containsL domain.data (listLower text.data) = true) := by
  by_cases h :
      FREE_MAIL_DOMAINS.any (fun domain => containsL domain.data (listLower text.data)) = true
  · have hv : calculate_confidence "EMAIL" text = mkRat 95 100 := by
      simp [calculate_confidence, h]
    exact ⟨Or.inl hv, by simp [hv, ← List.any_eq_true, h]⟩
  · have hv : calculate_confidence "EMAIL" text = mkRat 90 100 := by
      simp only [calculate_confidence]
      rw [if_neg (by decide), if_pos (by decide), if_neg (by simpa using h)]
    refine ⟨Or.inr hv, ?_⟩
    rw [hv]
    constructor
    · intro habs
      exact absurd habs (by decide)
    · rintro ⟨domain, hdom, hcon⟩
      exact absurd (List.any_eq_true.mpr ⟨domain, hdom, hcon⟩) h

/-- Auxiliary characterization of `validate_redaction_area`: it accepts
exactly when every field parses and all the numeric conditions hold. -/
theorem validate_true_iff (area : AreaDict) (page_count : ℕ) :
    validate_redaction_area area page_count = true ↔
      ∃ page x y width height : ℚ,
        area.page.asNumber 1 = some page ∧ area.x.asNumber 0 = some x ∧
        area.y.asNumber 0 = some y ∧ area.width.asNumber 0 = some width ∧
        area.height.asNumber 0 = some height ∧
        1 ≤ page ∧ page ≤ (page_count : ℚ) ∧ 0 ≤ x ∧ 0 ≤ y ∧
        0 < width ∧ 0 < height ∧ width ≤ 10000 ∧ height ≤ 10000 := by
  rcases hp : area.page.asNumber 1 with _ | page
  · simp [validate_redaction_area, hp]
  rcases hx : area.x.asNumber 0 with _ | x
  · simp [validate_redaction_area, hp, hx]
  rcases hy : area.y.asNumber 0 with _ | y
  · simp [validate_redaction_area, hp, hx, hy]
  rcases hw : area.width.asNumber 0 with _ | width
  · simp [validate_redaction_area, hp, hx, hy, hw]
  rcases hh : area.height.asNumber 0 with _ | height
  · simp [validate_redaction_area, hp, hx, hy, hw, hh]
  simp only [validate_redaction_area, hp, hx, hy, hw, hh]
  constructor
  · intro hv
    split_ifs at hv with h1 h2 h3
    push_neg at h1 h2 h3
    exact ⟨page, x, y, width, height, rfl, rfl, rfl, rfl, rfl, h1.1, h1.2,
      h2.1, h2.2.1, h2.2.2.1, h2.2.2.2, h3.1, h3.2⟩
  · rintro ⟨p', x', y', w', h', hp', hx', hy', hw', hh', c1, c2, c3, c4, c5, c6, c7, c8⟩
    injection hp' with e1
    injection hx' with e2
    injection hy' with e3
    injection hw' with e4
    injection hh' with e5
    subst e1
    subst e2
    subst e3
    subst e4
    subst e5
    split_ifs with h1 h2 h3
    · rcases h1 with h | h <;> linarith
    · rcases h2 with h | h | h | h <;> linarith
    · rcases h3 with h | h <;> linarith
    · rfl

/-- C4: `validate_redaction_area` returns invalid (false) exactly when the
page number lies outside `[1, page_count]`, or x or y is negative, or width
or height is ≤ 0 or exceeds 10,000; it is a total function (never throws)
and any parse failure — a field on which `float()` or the comparison raises
— also yields false. The spec's concrete examples behave as stated. -/
theorem validate_redaction_area_spec :
    (∀ (area : AreaDict) (page_count : ℕ),
      validate_redaction_area area page_count = false ↔
        ¬ ∃ page x y width height : ℚ,
            area.page.asNumber 1 = some page ∧ area.x.asNumber 0 = some x ∧
            area.y.asNumber 0 = some y ∧ area.width.asNumber 0 = some width ∧
            area.height.asNumber 0 = some height ∧
            1 ≤ page ∧ page ≤ (page_count : ℚ) ∧ 0 ≤ x ∧ 0 ≤ y ∧
            0 < width ∧ 0 < height ∧ width ≤ 10000 ∧ height ≤ 10000) ∧
    (∀ (area : AreaDict) (page_count : ℕ),
      (area.page = .bad ∨ area.x = .bad ∨ area.y = .bad ∨
       area.width = .bad ∨ area.height = .bad) →
      validate_redaction_area area page_count = false) ∧
    validate_redaction_area ⟨.intNum 1, .intNum 10, .intNum 10, .intNum 50, .intNum 50⟩ 3 = true ∧
    validate_redaction_area ⟨.intNum 5, .intNum 10, .intNum 10, .intNum 50, .intNum 50⟩ 3 = false ∧
    validate_redaction_area ⟨.intNum 1, .intNum 10, .intNum 10, .intNum 20000, .intNum 10⟩ 3 = false ∧
    validate_redaction_area ⟨.intNum 1, .intNum 10, .intNum 10, .intNum (-5), .intNum 10⟩ 3 = false := by
  have hiff : ∀ (area : AreaDict) (page_count : ℕ),
      validate_redaction_area area page_count = false ↔
        ¬ ∃ page x y width height : ℚ,
            area.page.asNumber 1 = some page ∧ area.x.asNumber 0 = some x ∧
            area.y.asNumber 0 = some y ∧ area.width.asNumber 0 = some width ∧
            area.height.asNumber 0 = some height ∧
            1 ≤ page ∧ page ≤ (page_count : ℚ) ∧ 0 ≤ x ∧ 0 ≤ y ∧
            0 < width ∧ 0 < height ∧ width ≤ 10000 ∧ height ≤ 10000 := by
    intro area page_count
    rw [← validate_true_iff area page_count]
    cases hvb : validate_redaction_area area page_count <;> simp [hvb]
  refine ⟨hiff, ?_, by decide, by decide, by decide, by decide⟩
  intro area page_count hbad
  rw [hiff area page_count]
  rintro ⟨p, x, y, w, h, h1, h2, h3, h4, h5, -⟩
  rcases hbad with hb | hb | hb | hb | hb <;>
    simp [hb, PyVal.asNumber] at h1 h2 h3 h4 h5

/-- C5 amended: every redaction area that passes validation, whose `x` and
`y` keys are present in the dict, and whose page entry is absent or a JSON
integer, is applied — the loop body adds the annotation rectangle
`(x, y, x+width, y+height)` and the loop counts it — regardless of whether
the rectangle extends beyond the actual page's bounds: that condition only
determines the logged warning flag and never blocks application. (Both
provisos are forced by uncaught-exception paths after validation accepts
the area: a missing x/y key raises `KeyError` at `float(item[key])`, and a
float-typed page raises `IndexError` at `doc[page_number]`.) -/
theorem redact_applied_despite_bounds
    (getPageRect : ℤ → PageRect) (page_count : ℕ) (area : AreaDict) (x y : ℚ)
    (hval : validate_redaction_area area page_count = true)
    (hx : area.x.item = some x) (hy : area.y.item = some y)
    (hpage : area.page = .missing ∨ ∃ n : ℤ, area.page = .intNum n) :
    ∃ (idx : ℤ) (width height : ℚ),
      pageIndexOf area.page = some idx ∧
      area.width.item = some width ∧ area.height.item = some height ∧
      redactStep getPageRect page_count area =
        .applied ⟨x, y, x + width, y + height⟩
          (rectOutOfBounds ⟨x, y, x + width, y + height⟩ (getPageRect idx)) ∧
      ∀ (rest : List AreaDict) (rects : List (Rect × Bool)) (n : ℕ),
        redactLoop getPageRect page_count rest = .done rects n →
        redactLoop getPageRect page_count (area :: rest) =
          .done ((⟨x, y, x + width, y + height⟩,
                  rectOutOfBounds ⟨x, y, x + width, y + height⟩
                    (getPageRect idx)) :: rects) (n + 1) := by
  obtain ⟨p, x', y', w, h, hp', hx', hy', hw', hh', -, -, -, -, hwpos, hhpos, -, -⟩ :=
    (validate_true_iff area page_count).mp hval
  have hwn : area.width.item = some w := by
    cases hwv : area.width with
    | missing =>
      rw [hwv] at hw'
      simp [PyVal.asNumber] at hw'
      rw [← hw'] at hwpos
      exact absurd hwpos (by norm_num)
    | intNum n =>
      rw [hwv] at hw'
      exact hw'
    | floatNum q =>
      rw [hwv] at hw'
      exact hw'
    | bad =>
      rw [hwv] at hw'
      simp [PyVal.asNumber] at hw'
  have hhn : area.height.item = some h := by
    cases hhv : area.height with
    | missing =>
      rw [hhv] at hh'
      simp [PyVal.asNumber] at hh'
      rw [← hh'] at hhpos
      exact absurd hhpos (by norm_num)
    | intNum n =>
      rw [hhv] at hh'
      exact hh'
    | floatNum q =>
      rw [hhv] at hh'
      exact hh'
    | bad =>
      rw [hhv] at hh'
      simp [PyVal.asNumber] at hh'
  obtain ⟨idx, hidx⟩ : ∃ idx : ℤ, pageIndexOf area.page = some idx := by
    rcases hpage with hm | ⟨n, hn⟩
    · refine ⟨0, ?_⟩
      simp [hm, pageIndexOf]
    · refine ⟨n - 1, ?_⟩
      simp [hn, pageIndexOf]
  have hstep : redactStep getPageRect page_count area =
      .applied ⟨x, y, x + w, y + h⟩
        (rectOutOfBounds ⟨x, y, x + w, y + h⟩ (getPageRect idx)) := by
    simp [redactStep, hval, hidx, hx, hy, hwn, hhn]
  refine ⟨idx, w, h, hidx, hwn, hhn, hstep, ?_⟩
  intro rest rects n hrest
  simp [redactLoop, hstep, hrest]

/-- C5 counterexample to the claim as stated, in both uncaught-exception
variants: the area `{page: 1, y: 5, width: 50, height: 50}` (no `x` key)
passes validation — validation defaults the missing `x` to 0 — but
`float(item["x"])` then raises `KeyError`; and the area
`{page: 2.0, x: 10, y: 10, width: 50, height: 50}` (page a float, x and y
present) passes validation — the raw comparisons accept 2.0 — but
`doc[page_number]` then raises `IndexError` on the non-int index 1.0. In
either case the redaction is not applied and the request aborts. -/
theorem redact_validated_area_not_applied_counterexample :
    validate_redaction_area ⟨.intNum 1, .missing, .intNum 5, .intNum 50, .intNum 50⟩ 3 = true ∧
    redactStep (fun _ => ⟨612, 792⟩) 3 ⟨.intNum 1, .missing, .intNum 5, .intNum 50, .intNum 50⟩ =
      .raised "KeyError" ∧
    redactLoop (fun _ => ⟨612, 792⟩) 3 [⟨.intNum 1, .missing, .intNum 5, .intNum 50, .intNum 50⟩] =
      .raised "KeyError" ∧
    validate_redaction_area ⟨.floatNum 2, .intNum 10, .intNum 10, .intNum 50, .intNum 50⟩ 3 = true ∧
    (AreaDict.x ⟨.floatNum 2, .intNum 10, .intNum 10, .intNum 50, .intNum 50⟩).item = some 10 ∧
    (AreaDict.y ⟨.floatNum 2, .intNum 10, .intNum 10, .intNum 50, .intNum 50⟩).item = some 10 ∧
    redactStep (fun _ => ⟨612, 792⟩) 3 ⟨.floatNum 2, .intNum 10, .intNum 10, .intNum 50, .intNum 50⟩ =
      .raised "IndexError" ∧
    redactLoop (fun _ => ⟨612, 792⟩) 3 [⟨.floatNum 2, .intNum 10, .intNum 10, .intNum 50, .intNum 50⟩] =
      .raised "IndexError" := by decide

/-- C5 witness: the area `{page: 1, x: 500, y: 700, width: 200, height: 200}`
(page an int, x and y present) is valid for a 3-page document whose pages
are 612 × 792; its rectangle (500, 700, 700, 900) extends beyond the page
bounds — the warning flag is true — yet it is applied and counted. -/
theorem redact_applied_despite_bounds_witness :
    validate_redaction_area ⟨.intNum 1, .intNum 500, .intNum 700, .intNum 200, .intNum 200⟩ 3 = true ∧
    (AreaDict.x ⟨.intNum 1, .intNum 500, .intNum 700, .intNum 200, .intNum 200⟩).item = some 500 ∧
    (AreaDict.y ⟨.intNum 1, .intNum 500, .intNum 700, .intNum 200, .intNum 200⟩).item = some 700 ∧
    rectOutOfBounds ⟨500, 700, 700, 900⟩ ⟨612, 792⟩ = true ∧
    ∃ (idx : ℤ) (width height : ℚ),
      pageIndexOf (AreaDict.page ⟨.intNum 1, .intNum 500, .intNum 700, .intNum 200, .intNum 200⟩) =
        some idx ∧
      (AreaDict.width ⟨.intNum 1, .intNum 500, .intNum 700, .intNum 200, .intNum 200⟩).item =
        some width ∧
      (AreaDict.height ⟨.intNum 1, .intNum 500, .intNum 700, .intNum 200, .intNum 200⟩).item =
        some height ∧
      redactStep (fun _ => ⟨612, 792⟩) 3 ⟨.intNum 1, .intNum 500, .intNum 700, .intNum 200, .intNum 200⟩ =
        .applied ⟨500, 700, 500 + width, 700 + height⟩
          (rectOutOfBounds ⟨500, 700, 500 + width, 700 + height⟩
            ((fun (_ : ℤ) => (⟨612, 792⟩ : PageRect)) idx)) ∧
      ∀ (rest : List AreaDict) (rects : List (Rect × Bool)) (n : ℕ),
        redactLoop (fun _ => ⟨612, 792⟩) 3 rest = .done rects n →
        redactLoop (fun _ => ⟨612, 792⟩) 3
            (⟨.intNum 1, .intNum 500, .intNum 700, .intNum 200, .intNum 200⟩ :: rest) =
          .done ((⟨500, 700, 500 + width, 700 + height⟩,
                  rectOutOfBounds ⟨500, 700, 500 + width, 700 + height⟩
                    ((fun (_ : ℤ) => (⟨612, 792⟩ : PageRect)) idx)) :: rects) (n + 1) :=
  ⟨by decide, by decide, by decide, by decide,
    redact_applied_despite_bounds (fun _ => ⟨612, 792⟩) 3
      ⟨.intNum 1, .intNum 500, .intNum 700, .intNum 200, .intNum 200⟩ 500 700
      (by decide) (by decide) (by decide) (Or.inr ⟨1, rfl⟩)⟩


/-- Auxiliary: a finding in the output of `matchLoop` was either already
accumulated, or belongs to the scanned category and meets the threshold. -/
theorem matchLoop_mem {uuid : Nat → String} {text : String} {bbox : BBox}
    {page_num : Int} {t : ℚ} {category : String} (ms : List ReMatch) :
    ∀ acc f, f ∈ matchLoop uuid text bbox page_num t category ms acc →
      f ∈ acc ∨ (f.category = category ∧ t ≤ f.confidence) := by
  induction ms with
  | nil => intro acc f hf; exact Or.inl hf
  | cons m ms ih =>
    intro acc f hf
    simp only [matchLoop] at hf
    by_cases hc : t ≤ calculate_confidence category m.group
    · rw [if_pos hc] at hf
      rcases ih _ f hf with hmem | hnew
      · rcases List.mem_append.mp hmem with h | h
        · exact Or.inl h
        · right
          rw [List.mem_singleton.mp h]
          exact ⟨rfl, hc⟩
      · exact Or.inr hnew
    · rw [if_neg hc] at hf
      exact ih _ f hf

/-- Auxiliary: a finding in the output of `categoryLoop` was either already
accumulated, or its category is a `PATTERNS` key and it meets the
threshold. -/
theorem categoryLoop_mem {finditer : String → String → List ReMatch}
    {uuid : Nat → String} {text : String} {bbox : BBox} {page_num : Int} {t : ℚ}
    (cats : List String) :
    ∀ acc f, f ∈ categoryLoop finditer uuid text bbox page_num t cats acc →
      f ∈ acc ∨ ((List.lookup f.category PATTERNS).isSome ∧ t ≤ f.confidence) := by
  induction cats with
  | nil => intro acc f hf; exact Or.inl hf
  | cons c cs ih =>
    intro acc f hf
    simp only [categoryLoop] at hf
    cases hl : List.lookup c PATTERNS with
    | none =>
      rw [hl] at hf
      exact ih _ f hf
    | some pat =>
      rw [hl] at hf
      rcases ih _ f hf with hmem | hres
      · rcases matchLoop_mem _ _ f hmem with h | ⟨hcat, hconf⟩
        · exact Or.inl h
        · refine Or.inr ⟨?_, hconf⟩
          rw [hcat, hl]
          rfl
      · exact Or.inr hres

/-- Auxiliary: a finding in the output of `nameLoop` was either already
accumulated, or is a NAME finding carrying the whole span box and meeting
the threshold. -/
theorem nameLoop_mem {uuid : Nat → String} {text : String} {bbox : BBox}
    {page_num : Int} {t : ℚ} (inds : List String) :
    ∀ acc f, f ∈ nameLoop uuid text bbox page_num t inds acc →
      f ∈ acc ∨ (f.category = "NAME" ∧ f.bbox = bbox ∧ t ≤ f.confidence) := by
  induction inds with
  | nil => intro acc f hf; exact Or.inl hf
  | cons ind inds ih =>
    intro acc f hf
    simp only [nameLoop] at hf
    cases hcand : nameCandidate text ind with
    | none =>
      rw [hcand] at hf
      exact ih _ f hf
    | some nt =>
      simp only [hcand] at hf
      by_cases hc : t ≤ calculate_confidence "NAME" nt
      · rw [if_pos hc] at hf
        rcases ih _ f hf with hmem | hnew
        · rcases List.mem_append.mp hmem with h | h
          · exact Or.inl h
          · right
            rw [List.mem_singleton.mp h]
            exact ⟨rfl, rfl, hc⟩
        · exact Or.inr hnew
      · rw [if_neg hc] at hf
        exact ih _ f hf

/-- C1: every finding returned by `detect_in_text` has confidence at least
the caller's threshold; matches scoring below the threshold are discarded
and never appear in the output. -/
theorem detect_in_text_confidence_ge_threshold
    (finditer : String → String → List ReMatch) (uuid : Nat → String)
    (text : String) (bbox : BBox) (page_num : Int) (categories : List String)
    (t : ℚ) (f : Finding)
    (hf : f ∈ detect_in_text finditer uuid text bbox page_num categories t) :
    t ≤ f.confidence := by
  simp only [detect_in_text] at hf
  by_cases hn : "NAME" ∈ categories
  · rw [if_pos hn] at hf
    rcases nameLoop_mem _ _ f hf with hmem | ⟨-, -, hc⟩
    · rcases categoryLoop_mem _ _ f hmem with h | ⟨-, hc⟩
      · exact absurd h (List.not_mem_nil f)
      · exact hc
    · exact hc
  · rw [if_neg hn] at hf
    rcases categoryLoop_mem _ _ f hf with h | ⟨-, hc⟩
    · exact absurd h (List.not_mem_nil f)
    · exact hc

/-- C1 witness: on the span "Dr. John Smith" with categories ["NAME"] and
threshold 0.7, the returned NAME finding has confidence 0.75 ≥ 0.7. -/
theorem detect_in_text_confidence_ge_threshold_witness :
    ({ id := "NAME_1_", category := "NAME", name := "Name", text := "Dr. John Smith",
       confidence := mkRat 75 100, page := 1, bbox := ⟨0, 0, 100, 10⟩ } : Finding) ∈
      detect_in_text (fun _ _ => []) (fun _ => "") "Dr. John Smith" ⟨0, 0, 100, 10⟩ 1
        ["NAME"] (mkRat 7 10) ∧
    mkRat 7 10 ≤
      ({ id := "NAME_1_", category := "NAME", name := "Name", text := "Dr. John Smith",
         confidence := mkRat 75 100, page := 1, bbox := ⟨0, 0, 100, 10⟩ } : Finding).confidence :=
  ⟨by decide,
    detect_in_text_confidence_ge_threshold (fun _ _ => []) (fun _ => "") "Dr. John Smith"
      ⟨0, 0, 100, 10⟩ 1 ["NAME"] (mkRat 7 10) _ (by decide)⟩

/-- C10: every NAME finding produced by `detect_in_text` carries the whole
span bounding box unchanged — NAME findings never pass through the
geometric projection. -/
theorem name_findings_keep_span_bbox
    (finditer : String → String → List ReMatch) (uuid : Nat → String)
    (text : String) (bbox : BBox) (page_num : Int) (categories : List String)
    (t : ℚ) (f : Finding)
    (hf : f ∈ detect_in_text finditer uuid text bbox page_num categories t)
    (hcat : f.category = "NAME") :
    f.bbox = bbox := by
  simp only [detect_in_text] at hf
  by_cases hn : "NAME" ∈ categories
  · rw [if_pos hn] at hf
    rcases nameLoop_mem _ _ f hf with hmem | ⟨-, hbb, -⟩
    · rcases categoryLoop_mem _ _ f hmem with h | ⟨hsome, -⟩
      · exact absurd h (List.not_mem_nil f)
      · rw [hcat] at hsome
        exact absurd hsome (by decide)
    · exact hbb
  · rw [if_neg hn] at hf
    rcases categoryLoop_mem _ _ f hf with h | ⟨hsome, -⟩
    · exact absurd h (List.not_mem_nil f)
    · rw [hcat] at hsome
      exact absurd hsome (by decide)

/-- C10 witness: on the span "Mrs. Jane Doe" with box [3,4,5,6] the NAME
finding keeps that whole box. -/
theorem name_findings_keep_span_bbox_witness :
    ({ id := "NAME_2_ab", category := "NAME", name := "Name", text := "Mrs. Jane Doe",
       confidence := mkRat 75 100, page := 2, bbox := ⟨3, 4, 5, 6⟩ } : Finding) ∈
      detect_in_text (fun _ _ => []) (fun _ => "ab") "Mrs. Jane Doe" ⟨3, 4, 5, 6⟩ 2
        ["NAME"] (mkRat 7 10) ∧
    ({ id := "NAME_2_ab", category := "NAME", name := "Name", text := "Mrs. Jane Doe",
       confidence := mkRat 75 100, page := 2, bbox := ⟨3, 4, 5, 6⟩ } : Finding).category =
      "NAME" ∧
    ({ id := "NAME_2_ab", category := "NAME", name := "Name", text := "Mrs. Jane Doe",
       confidence := mkRat 75 100, page := 2, bbox := ⟨3, 4, 5, 6⟩ } : Finding).bbox =
      ⟨3, 4, 5, 6⟩ :=
  ⟨by decide, by decide,
    name_findings_keep_span_bbox (fun _ _ => []) (fun _ => "ab") "Mrs. Jane Doe"
      ⟨3, 4, 5, 6⟩ 2 ["NAME"] (mkRat 7 10) _ (by decide) (by decide)⟩

/-- Auxiliary: `categoryLoop` skips a category that is not a `PATTERNS`
key, wherever it occurs in the requested list. -/
theorem categoryLoop_skip {finditer : String → String → List ReMatch}
    {uuid : Nat → String} {text : String} {bbox : BBox} {page_num : Int} {t : ℚ}
    (c : String) (hc : List.lookup c PATTERNS = none) (l1 l2 : List String) :
    ∀ acc, categoryLoop finditer uuid text bbox page_num t (l1 ++ c :: l2) acc =
      categoryLoop finditer uuid text bbox page_num t (l1 ++ l2) acc := by
  induction l1 with
  | nil =>
    intro acc
    simp only [List.nil_append, categoryLoop, hc]
  | cons a l1 ih =>
    intro acc
    simp only [List.cons_append, categoryLoop]
    cases List.lookup a PATTERNS with
    | none => exact ih _
    | some pat => exact ih _

/-- C8: a requested category that is neither a `PATTERNS` key nor "NAME"
contributes no findings and raises no error: the run with it equals the run
without it, the remaining categories being unaffected. -/
theorem unknown_category_skipped
    (finditer : String → String → List ReMatch) (uuid : Nat → String)
    (text : String) (bbox : BBox) (page_num : Int) (l1 l2 : List String)
    (c : String) (t : ℚ)
    (hc : List.lookup c PATTERNS = none) (hcn : c ≠ "NAME") :
    detect_in_text finditer uuid text bbox page_num (l1 ++ c :: l2) t =
      detect_in_text finditer uuid text bbox page_num (l1 ++ l2) t := by
  simp only [detect_in_text]
  rw [categoryLoop_skip c hc l1 l2]
  have hmem : ("NAME" ∈ l1 ++ c :: l2) ↔ ("NAME" ∈ l1 ++ l2) := by
    simp only [List.mem_append, List.mem_cons]
    constructor
    · rintro (h | h | h)
      · exact Or.inl h
      · exact absurd h.symm hcn
      · exact Or.inr h
    · rintro (h | h)
      · exact Or.inl h
      · exact Or.inr (Or.inr h)
  by_cases hn : "NAME" ∈ l1 ++ l2
  · rw [if_pos (hmem.mpr hn), if_pos hn]
  · rw [if_neg (fun h => hn (hmem.mp h)), if_neg hn]

/-- C8 witness: requesting ["SSN", "PASSPORT", "NAME"] — "PASSPORT" being
unknown — produces the same findings as requesting ["SSN", "NAME"]. -/
theorem unknown_category_skipped_witness :
    List.lookup "PASSPORT" PATTERNS = none ∧ "PASSPORT" ≠ "NAME" ∧
    detect_in_text (fun _ _ => [⟨"123-45-6789", 5, 16⟩]) (fun _ => "cafe2bad")
        "SSN: 123-45-6789 end" ⟨0, 0, 100, 10⟩ 1 (["SSN"] ++ "PASSPORT" :: ["NAME"])
        (mkRat 7 10) =
      detect_in_text (fun _ _ => [⟨"123-45-6789", 5, 16⟩]) (fun _ => "cafe2bad")
        "SSN: 123-45-6789 end" ⟨0, 0, 100, 10⟩ 1 (["SSN"] ++ ["NAME"]) (mkRat 7 10) :=
  ⟨by decide, by decide,
    unknown_category_skipped (fun _ _ => [⟨"123-45-6789", 5, 16⟩]) (fun _ => "cafe2bad")
      "SSN: 123-45-6789 end" ⟨0, 0, 100, 10⟩ 1 ["SSN"] ["NAME"] "PASSPORT" (mkRat 7 10)
      (by decide) (by decide)⟩


/-- Auxiliary: `matchLoop` under two uuid supplies produces findings with
the same identifier-free content. -/
theorem matchLoop_stripId {text : String} {bbox : BBox} {page_num : Int}
    {t : ℚ} {category : String} (u1 u2 : Nat → String) (ms : List ReMatch) :
    ∀ acc1 acc2, acc1.map stripId = acc2.map stripId →
      (matchLoop u1 text bbox page_num t category ms acc1).map stripId =
        (matchLoop u2 text bbox page_num t category ms acc2).map stripId := by
  induction ms with
  | nil => intro a b h; exact h
  | cons m ms ih =>
    intro a b h
    simp only [matchLoop]
    by_cases hc : t ≤ calculate_confidence category m.group
    · rw [if_pos hc, if_pos hc]
      apply ih
      simp [stripId, h]
    · rw [if_neg hc, if_neg hc]
      exact ih _ _ h

/-- Auxiliary: `categoryLoop` under two uuid supplies produces findings with
the same identifier-free content. -/
theorem categoryLoop_stripId {finditer : String → String → List ReMatch}
    {text : String} {bbox : BBox} {page_num : Int} {t : ℚ}
    (u1 u2 : Nat → String) (cats : List String) :
    ∀ acc1 acc2, acc1.map stripId = acc2.map stripId →
      (categoryLoop finditer u1 text bbox page_num t cats acc1).map stripId =
        (categoryLoop finditer u2 text bbox page_num t cats acc2).map stripId := by
  induction cats with
  | nil => intro a b h; exact h
  | cons c cs ih =>
    intro a b h
    simp only [categoryLoop]
    cases List.lookup c PATTERNS with
    | none => exact ih _ _ h
    | some pat => exact ih _ _ (matchLoop_stripId u1 u2 _ _ _ h)

/-- Auxiliary: `nameLoop` under two uuid supplies produces findings with the
same identifier-free content. -/
theorem nameLoop_stripId {text : String} {bbox : BBox} {page_num : Int}
    {t : ℚ} (u1 u2 : Nat → String) (inds : List String) :
    ∀ acc1 acc2, acc1.map stripId = acc2.map stripId →
      (nameLoop u1 text bbox page_num t inds acc1).map stripId =
        (nameLoop u2 text bbox page_num t inds acc2).map stripId := by
  induction inds with
  | nil => intro a b h; exact h
  | cons ind inds ih =>
    intro a b h
    simp only [nameLoop]
    cases nameCandidate text ind with
    | none => exact ih _ _ h
    | some nt =>
      dsimp only
      by_cases hc : t ≤ calculate_confidence "NAME" nt
      · rw [if_pos hc, if_pos hc]
        apply ih
        simp [stripId, h]
      · rw [if_neg hc, if_neg hc]
        exact ih _ _ h

/-- C9: two runs of `detect_in_text` on the same text, box, page,
categories and threshold — differing only in the random uuid supply —
return finding lists of the same length whose findings agree, position by
position, on category, name, text, confidence, page and bbox; only the
`id` fields can differ. -/
theorem detect_in_text_uuid_irrelevant
    (finditer : String → String → List ReMatch) (u1 u2 : Nat → String)
    (text : String) (bbox : BBox) (page_num : Int) (categories : List String)
    (t : ℚ) :
    (detect_in_text finditer u1 text bbox page_num categories t).map stripId =
      (detect_in_text finditer u2 text bbox page_num categories t).map stripId ∧
    (detect_in_text finditer u1 text bbox page_num categories t).length =
      (detect_in_text finditer u2 text bbox page_num categories t).length := by
  have hmap :
      (detect_in_text finditer u1 text bbox page_num categories t).map stripId =
        (detect_in_text finditer u2 text bbox page_num categories t).map stripId := by
    simp only [detect_in_text]
    by_cases hn : "NAME" ∈ categories
    · rw [if_pos hn, if_pos hn]
      exact nameLoop_stripId u1 u2 _ _ _ (categoryLoop_stripId u1 u2 _ _ _ rfl)
    · rw [if_neg hn, if_neg hn]
      exact categoryLoop_stripId u1 u2 _ _ _ rfl
  refine ⟨hmap, ?_⟩
  have := congrArg List.length hmap
  simpa using this

/-- Auxiliary: the confidence of a NAME candidate is always 0.75. -/
theorem calculate_confidence_name (s : String) :
    calculate_confidence "NAME" s = mkRat 75 100 := rfl

/-- Auxiliary: the NAME findings appended by `nameLoop`, read through their
`text` field, are exactly one entry per indicator whose candidate passes,
provided the threshold does not exceed the fixed NAME confidence 0.75. -/
theorem nameLoop_filter_text {uuid : Nat → String} {text : String} {bbox : BBox}
    {page_num : Int} {t : ℚ} (ht : t ≤ mkRat 75 100) (inds : List String) :
    ∀ acc,
      ((nameLoop uuid text bbox page_num t inds acc).filter
          (fun f => f.category == "NAME")).map (fun f => f.text) =
        ((acc.filter (fun f => f.category == "NAME")).map (fun f => f.text)) ++
          inds.filterMap (fun ind =>
            (nameCandidate text ind).map (fun nt => ind ++ " " ++ nt)) := by
  induction inds with
  | nil => intro acc; simp [nameLoop]
  | cons ind inds ih =>
    intro acc
    simp only [nameLoop, List.filterMap_cons]
    cases hcand : nameCandidate text ind with
    | none =>
      simp only [hcand, Option.map_none']
      exact ih _
    | some nt =>
      simp only [hcand, Option.map_some']
      rw [if_pos (by rw [calculate_confidence_name]; exact ht)]
      rw [ih _]
      simp [List.filter_append]

/-- Auxiliary: the pattern loop never yields a NAME finding, "NAME" not
being a `PATTERNS` key. -/
theorem categoryLoop_filter_name_nil {finditer : String → String → List ReMatch}
    {uuid : Nat → String} {text : String} {bbox : BBox} {page_num : Int} {t : ℚ}
    (cats : List String) :
    (categoryLoop finditer uuid text bbox page_num t cats []).filter
      (fun f => f.category == "NAME") = [] := by
  rw [List.filter_eq_nil_iff]
  intro f hf
  rcases categoryLoop_mem _ _ f hf with h | ⟨hsome, -⟩
  · exact absurd h (List.not_mem_nil f)
  · intro hbeq
    have hcat : f.category = "NAME" := by simpa using hbeq
    rw [hcat] at hsome
    exact absurd hsome (by decide)

/-- C7 amended: when "NAME" is requested and the caller's threshold does
not exceed the fixed NAME confidence 0.75, the NAME findings of
`detect_in_text`, read through their matched text, are exactly one finding
per honorific indicator whose candidate passes — the candidate taking up to
three whitespace-delimited tokens from the piece of `text.split(indicator)`
following the first occurrence, requiring at least two tokens, all starting
with an uppercase letter — with matched text the indicator followed by the
joined tokens. -/
theorem name_heuristic_spec
    (finditer : String → String → List ReMatch) (uuid : Nat → String)
    (text : String) (bbox : BBox) (page_num : Int) (categories : List String)
    (t : ℚ) (hn : "NAME" ∈ categories) (ht : t ≤ mkRat 75 100) :
    ((detect_in_text finditer uuid text bbox page_num categories t).filter
        (fun f => f.category == "NAME")).map (fun f => f.text) =
      NAME_INDICATORS.filterMap (fun ind =>
        (nameCandidate text ind).map (fun nt => ind ++ " " ++ nt)) := by
  simp only [detect_in_text, if_pos hn]
  rw [nameLoop_filter_text ht NAME_INDICATORS _]
  rw [categoryLoop_filter_name_nil]
  simp

/-- C7 counterexample to the claim as stated: on "Dr. John Smith" the
indicator "Dr." is followed by the two capitalized tokens "John" and
"Smith", yet with threshold 0.9 `detect_in_text` produces no NAME finding
at all — the claim omits that the finding also requires the fixed NAME
confidence 0.75 to clear the caller's threshold. -/
theorem name_heuristic_threshold_counterexample :
    nameCandidate "Dr. John Smith" "Dr." = some "John Smith" ∧
    (pySplitWs (stripL ((pySplit "Dr. John Smith".data "Dr.".data).getD 1 []))).take 3 =
      ["John".data, "Smith".data] ∧
    detect_in_text (fun _ _ => []) (fun _ => "") "Dr. John Smith" ⟨0, 0, 100, 10⟩ 1
      ["NAME"] (mkRat 9 10) = [] := by decide

/-- C7 witness: the amended statement applied on "Dr. John Smith" with
categories ["NAME"] and threshold 0.7. -/
theorem name_heuristic_spec_witness :
    ("NAME" ∈ ["NAME"]) ∧ mkRat 7 10 ≤ mkRat 75 100 ∧
    ((detect_in_text (fun _ _ => []) (fun _ => "") "Dr. John Smith" ⟨0, 0, 100, 10⟩ 1
        ["NAME"] (mkRat 7 10)).filter (fun f => f.category == "NAME")).map
        (fun f => f.text) =
      NAME_INDICATORS.filterMap (fun ind =>
        (nameCandidate "Dr. John Smith" ind).map (fun nt => ind ++ " " ++ nt)) :=
  ⟨by decide, by decide,
    name_heuristic_spec (fun _ _ => []) (fun _ => "") "Dr. John Smith" ⟨0, 0, 100, 10⟩ 1
      ["NAME"] (mkRat 7 10) (by decide) (by decide)⟩

/-- Auxiliary: every finding appended by `matchLoop` carries the projected
box of its match's offsets and that match's text. -/
theorem matchLoop_bbox {uuid : Nat → String} {text : String} {bbox : BBox}
    {page_num : Int} {t : ℚ} {category : String} (ms : List ReMatch) :
    ∀ acc f, f ∈ matchLoop uuid text bbox page_num t category ms acc →
      f ∈ acc ∨ ∃ m ∈ ms, f.text = m.group ∧
        f.bbox = matchBbox bbox text.data.length m.start m.stop := by
  induction ms with
  | nil => intro acc f hf; exact Or.inl hf
  | cons m ms ih =>
    intro acc f hf
    simp only [matchLoop] at hf
    by_cases hc : t ≤ calculate_confidence category m.group
    · rw [if_pos hc] at hf
      rcases ih _ f hf with hmem | ⟨m', hm', hrest⟩
      · rcases List.mem_append.mp hmem with h | h
        · exact Or.inl h
        · right
          refine ⟨m, List.mem_cons_self m ms, ?_⟩
          rw [List.mem_singleton.mp h]
          exact ⟨rfl, rfl⟩
      · exact Or.inr ⟨m', List.mem_cons_of_mem m hm', hrest⟩
    · rw [if_neg hc] at hf
      rcases ih _ f hf with hmem | ⟨m', hm', hrest⟩
      · exact Or.inl hmem
      · exact Or.inr ⟨m', List.mem_cons_of_mem m hm', hrest⟩

/-- Auxiliary: every finding produced by the pattern loop carries the
projected box of some regex match of the run. -/
theorem categoryLoop_bbox {finditer : String → String → List ReMatch}
    {uuid : Nat → String} {text : String} {bbox : BBox} {page_num : Int} {t : ℚ}
    (cats : List String) :
    ∀ acc f, f ∈ categoryLoop finditer uuid text bbox page_num t cats acc →
      f ∈ acc ∨ ∃ pat m, m ∈ finditer pat text ∧ f.text = m.group ∧
        f.bbox = matchBbox bbox text.data.length m.start m.stop := by
  induction cats with
  | nil => intro acc f hf; exact Or.inl hf
  | cons c cs ih =>
    intro acc f hf
    simp only [categoryLoop] at hf
    cases hl : List.lookup c PATTERNS with
    | none =>
      rw [hl] at hf
      exact ih _ f hf
    | some pat =>
      rw [hl] at hf
      rcases ih _ f hf with hmem | hres
      · rcases matchLoop_bbox _ _ f hmem with h | ⟨m, hm, hrest⟩
        · exact Or.inl h
        · exact Or.inr ⟨pat, m, hm, hrest⟩
      · exact Or.inr hres

/-- C6: for a span of nonzero character length the projected match box is
`[x0 + (x1-x0)·start/len, y0, x0 + (x1-x0)·end/len, y1]`; for an empty span
it is the input box unchanged; the spec's example — span length 10, box
[0,0,100,10], offsets (2,5) — projects to [20,0,50,10]; and every
pattern-category finding of `detect_in_text` carries exactly the projection
of its match's offsets. -/
theorem matchBbox_linear_projection :
    (∀ (bbox : BBox) (len s e : ℕ), 0 < len →
      matchBbox bbox len s e =
        ⟨bbox.x1 + (bbox.x2 - bbox.x1) * (s : ℚ) / (len : ℚ), bbox.y1,
         bbox.x1 + (bbox.x2 - bbox.x1) * (e : ℚ) / (len : ℚ), bbox.y2⟩) ∧
    (∀ (bbox : BBox) (s e : ℕ), matchBbox bbox 0 s e = bbox) ∧
    matchBbox ⟨0, 0, 100, 10⟩ 10 2 5 = ⟨20, 0, 50, 10⟩ ∧
    (∀ (finditer : String → String → List ReMatch) (uuid : Nat → String)
        (text : String) (bbox : BBox) (page_num : Int) (categories : List String)
        (t : ℚ) (f : Finding),
      f ∈ detect_in_text finditer uuid text bbox page_num categories t →
      f.category ≠ "NAME" →
      ∃ pat m, m ∈ finditer pat text ∧ f.text = m.group ∧
        f.bbox = matchBbox bbox text.data.length m.start m.stop) := by
  refine ⟨?_, ?_, ?_, ?_⟩
  · intro bbox len s e hlen
    simp only [matchBbox, if_pos hlen, BBox.mk.injEq]
    refine ⟨by ring, trivial, by ring, trivial⟩
  · intro bbox s e
    simp [matchBbox]
  · simp only [matchBbox, BBox.mk.injEq]
    norm_num
  · intro finditer uuid text bbox page_num categories t f hf hne
    simp only [detect_in_text] at hf
    by_cases hn : "NAME" ∈ categories
    · rw [if_pos hn] at hf
      rcases nameLoop_mem _ _ f hf with hmem | ⟨hcat, -, -⟩
      · rcases categoryLoop_bbox _ _ f hmem with h | hres
        · exact absurd h (List.not_mem_nil f)
        · exact hres
      · exact absurd hcat hne
    · rw [if_neg hn] at hf
      rcases categoryLoop_bbox _ _ f hf with h | hres
      · exact absurd h (List.not_mem_nil f)
      · exact hres

/-- C6 witness: the general projection formula applied at span length 10,
box [0,0,100,10], offsets (2,5); and the findings conjunct applied at a
concrete pattern finding of a degenerate (empty) span. -/
theorem matchBbox_linear_projection_witness :
    (0 < 10 ∧
      matchBbox ⟨0, 0, 100, 10⟩ 10 2 5 =
        ⟨(0 : ℚ) + ((100 : ℚ) - (0 : ℚ)) * ((2 : ℕ) : ℚ) / ((10 : ℕ) : ℚ), (0 : ℚ),
         (0 : ℚ) + ((100 : ℚ) - (0 : ℚ)) * ((5 : ℕ) : ℚ) / ((10 : ℕ) : ℚ), (10 : ℚ)⟩) ∧
    (({ id := "SSN_1_", category := "SSN", name := "Ssn", text := "123-45-6789",
        confidence := mkRat 95 100, page := 1, bbox := ⟨0, 0, 100, 10⟩ } : Finding) ∈
        detect_in_text (fun _ _ => [⟨"123-45-6789", 0, 0⟩]) (fun _ => "") "" ⟨0, 0, 100, 10⟩
          1 ["SSN"] (mkRat 7 10) ∧
      ∃ (pat : String) (m : ReMatch),
        m ∈ (fun (_ _ : String) => [(⟨"123-45-6789", 0, 0⟩ : ReMatch)]) pat "" ∧
        ({ id := "SSN_1_", category := "SSN", name := "Ssn", text := "123-45-6789",
           confidence := mkRat 95 100, page := 1, bbox := ⟨0, 0, 100, 10⟩ } : Finding).text =
          m.group ∧
        ({ id := "SSN_1_", category := "SSN", name := "Ssn", text := "123-45-6789",
           confidence := mkRat 95 100, page := 1, bbox := ⟨0, 0, 100, 10⟩ } : Finding).bbox =
          matchBbox ⟨0, 0, 100, 10⟩ "".data.length m.start m.stop) :=
  ⟨⟨by decide, matchBbox_linear_projection.1 ⟨0, 0, 100, 10⟩ 10 2 5 (by decide)⟩,
    by decide,
    matchBbox_linear_projection.2.2.2 (fun _ _ => [⟨"123-45-6789", 0, 0⟩]) (fun _ => "")
      "" ⟨0, 0, 100, 10⟩ 1 ["SSN"] (mkRat 7 10)
      { id := "SSN_1_", category := "SSN", name := "Ssn", text := "123-45-6789",
        confidence := mkRat 95 100, page := 1, bbox := ⟨0, 0, 100, 10⟩ }
      (by decide) (by decide)⟩

/-- C4 witness: the characterization applied at a concrete area with an
unparseable width — validation yields false. -/
theorem validate_redaction_area_spec_witness :
    ((⟨.intNum 1, .intNum 10, .intNum 10, .bad, .intNum 10⟩ : AreaDict).page = .bad ∨
     (⟨.intNum 1, .intNum 10, .intNum 10, .bad, .intNum 10⟩ : AreaDict).x = .bad ∨
     (⟨.intNum 1, .intNum 10, .intNum 10, .bad, .intNum 10⟩ : AreaDict).y = .bad ∨
     (⟨.intNum 1, .intNum 10, .intNum 10, .bad, .intNum 10⟩ : AreaDict).width = .bad ∨
     (⟨.intNum 1, .intNum 10, .intNum 10, .bad, .intNum 10⟩ : AreaDict).height = .bad) ∧
    validate_redaction_area ⟨.intNum 1, .intNum 10, .intNum 10, .bad, .intNum 10⟩ 3 = false :=
  ⟨Or.inr (Or.inr (Or.inr (Or.inl rfl))),
    validate_redaction_area_spec.2.1 ⟨.intNum 1, .intNum 10, .intNum 10, .bad, .intNum 10⟩ 3
      (Or.inr (Or.inr (Or.inr (Or.inl rfl))))⟩
